import Mathlib

/-!
Shallow embedding of the cw20-bid-more auction contract
(src/contracts/cw20-bid-more/src/{contract.rs, state.rs, msg.rs})
and the parts of its dependencies that the contract exercises
(cosmwasm storage buckets, the cw20 `Expiration` / `Cw20Coin` types and
cw0 pagination helpers).

Modelling conventions:
- Addresses (`HumanAddr` / `CanonicalAddr`) are collapsed into one opaque
  address type `Addr := String`; the canonicalization API
  (`api.canonical_address` / `api.human_address`) is modelled as the
  identity, as the two representations are interconvertible and the
  contract only stores and compares them.
- `Uint128` amounts become `Nat` (the contract only compares and copies
  amounts, it never does arithmetic on them, so no overflow can occur).
- Storage keys are raw byte lists (`List Nat`); the auction bucket is an
  association list sorted by ascending byte-lexicographic key order,
  mirroring the sorted key iteration of the backing KV store.
- Fallible operations return `Except StdError`, and a failed operation
  leaves the store unchanged (`runCreate` / `runBid` expose this
  all-or-nothing commit behaviour of the host).
-/

namespace BidMore

/-- Addresses: one opaque address value type with decidable equality. -/
abbrev Addr := String

/-- Model of cosmwasm `StdError`, restricted to the variants this
contract can produce: `generic_err`, `not_found` (from `Bucket::load`)
and `invalid_utf8` (from key decoding in `all_auction_ids`). -/
inductive StdError where
  | genericErr (msg : String)
  | notFound (kind : String)
  | invalidUtf8 (msg : String)
deriving DecidableEq, Repr

/-- Model of cosmwasm `BlockInfo` (height, time, chain id). -/
structure BlockInfo where
  height : Nat
  time : Nat
  chain_id : String
deriving DecidableEq, Repr

/-- Model of cw20 `Expiration`: at a block height, at a timestamp, or never. -/
inductive Expiration where
  | atHeight (height : Nat)
  | atTime (time : Nat)
  | never
deriving DecidableEq, Repr

/-- Model of cw20 `Expiration::is_expired`: height/time reached means expired. -/
def Expiration.is_expired (e : Expiration) (block : BlockInfo) : Bool :=
  match e with
  | .atHeight h => decide (block.height ≥ h)
  | .atTime t => decide (block.time ≥ t)
  | .never => false

/-- Model of cw20 `Cw20Coin`: a token contract address and an amount. -/
structure Cw20Coin where
  address : Addr
  amount : Nat
deriving DecidableEq, Repr

/-- Model of cw20 `Cw20Coin::is_empty`: the amount is zero. -/
def Cw20Coin.is_empty (c : Cw20Coin) : Bool :=
  decide (c.amount = 0)

/-- The persisted `Auction` record (state.rs). -/
structure Auction where
  winner : Addr
  source : Addr
  expires : Expiration
  balance : Cw20Coin
deriving DecidableEq, Repr

/-- Model of state.rs `Auction::is_expired`. -/
def Auction.is_expired (a : Auction) (block : BlockInfo) : Bool :=
  a.expires.is_expired block

/-- Execution environment: the current block and the contract address
(the fields of cosmwasm `Env` the contract reads). -/
structure Env where
  block : BlockInfo
  contract_address : Addr
deriving DecidableEq, Repr

/-! ### The namespaced store (cosmwasm `Bucket` under prefix "auction")

Keys are raw byte lists. The backing KV store iterates keys in ascending
byte-lexicographic order, so the bucket is modelled as an association
list sorted by `keyLt`; `storeSorted` is the representation invariant,
preserved by `storeInsert`. -/

/-- Byte-lexicographic strict order on raw keys. -/
def keyLt : List Nat → List Nat → Bool
  | [], [] => false
  | [], _ :: _ => true
  | _ :: _, [] => false
  | a :: as, b :: bs => if a < b then true else if a = b then keyLt as bs else false

/-- The auction bucket: an association list from raw key bytes to records. -/
abbrev Store := List (List Nat × Auction)

/-- Sortedness invariant of the bucket: keys strictly ascending. -/
abbrev storeSorted (s : Store) : Prop :=
  List.Pairwise (fun p q => keyLt p.1 q.1 = true) s

/-- Model of bucket read (`may_load`): the value at a key, if present. -/
def storeLoad (k : List Nat) : Store → Option Auction
  | [] => none
  | (k', v') :: rest => if k = k' then some v' else storeLoad k rest

/-- Model of bucket write (`save`): order-preserving insert, replacing any
existing value at the same key. -/
def storeInsert (k : List Nat) (v : Auction) : Store → Store
  | [] => [(k, v)]
  | (k', v') :: rest =>
    if keyLt k k' then (k, v) :: (k', v') :: rest
    else if k = k' then (k, v) :: rest
    else (k', v') :: storeInsert k v rest

/-- Model of cosmwasm `Bucket::update`: load the current value, apply the
closure, and save its result; the closure's error aborts the write. -/
def bucketUpdate (k : List Nat) (action : Option Auction → Except StdError Auction)
    (s : Store) : Except StdError (Store × Auction) :=
  match action (storeLoad k s) with
  | .ok v => .ok (storeInsert k v s, v)
  | .error e => .error e

/-! ### UTF-8 encoding and decoding

`try_create`/`try_bid` key the bucket by `id.as_bytes()` (UTF-8 bytes of
the identifier) and `all_auction_ids` decodes raw keys back with Rust's
`String::from_utf8`, which validates UTF-8 strictly (rejecting overlong
forms, surrogates and out-of-range code points). -/

/-- UTF-8 encoding of a single character (the standard 1–4 byte form). -/
def utf8EncodeChar (c : Char) : List Nat :=
  if c.toNat < 0x80 then [c.toNat]
  else if c.toNat < 0x800 then
    [0xC0 + c.toNat / 64, 0x80 + c.toNat % 64]
  else if c.toNat < 0x10000 then
    [0xE0 + c.toNat / 4096, 0x80 + (c.toNat / 64) % 64, 0x80 + c.toNat % 64]
  else
    [0xF0 + c.toNat / 262144, 0x80 + (c.toNat / 4096) % 64, 0x80 + (c.toNat / 64) % 64,
      0x80 + c.toNat % 64]

/-- Model of Rust `str::as_bytes` / `String::into_bytes`. -/
def utf8Encode (s : String) : List Nat :=
  s.data.flatMap utf8EncodeChar

/-- Strict UTF-8 decoding of one character from the front of a byte list,
returning the character and the remaining bytes. Rejects continuation
bytes in lead position, truncated sequences, overlong forms, surrogate
code points and code points above 0x10FFFF, exactly as Rust's
`String::from_utf8` does. -/
def utf8DecodeChar : List Nat → Option (Char × List Nat)
  | [] => none
  | b :: rest =>
    if b < 0x80 then some (Char.ofNat b, rest)
    else if b < 0xC0 then none
    else if b < 0xE0 then
      match rest with
      | b1 :: rest1 =>
        if 0x80 ≤ b1 ∧ b1 < 0xC0 then
          if 0x80 ≤ (b - 0xC0) * 64 + (b1 - 0x80) then
            some (Char.ofNat ((b - 0xC0) * 64 + (b1 - 0x80)), rest1)
          else none
        else none
      | [] => none
    else if b < 0xF0 then
      match rest with
      | b1 :: b2 :: rest2 =>
        if (0x80 ≤ b1 ∧ b1 < 0xC0) ∧ (0x80 ≤ b2 ∧ b2 < 0xC0) then
          if 0x800 ≤ (b - 0xE0) * 4096 + (b1 - 0x80) * 64 + (b2 - 0x80) ∧
              ¬(0xD800 ≤ (b - 0xE0) * 4096 + (b1 - 0x80) * 64 + (b2 - 0x80) ∧
                (b - 0xE0) * 4096 + (b1 - 0x80) * 64 + (b2 - 0x80) ≤ 0xDFFF) then
            some (Char.ofNat ((b - 0xE0) * 4096 + (b1 - 0x80) * 64 + (b2 - 0x80)), rest2)
          else none
        else none
      | _ => none
    else if b < 0xF8 then
      match rest with
      | b1 :: b2 :: b3 :: rest3 =>
        if (0x80 ≤ b1 ∧ b1 < 0xC0) ∧ (0x80 ≤ b2 ∧ b2 < 0xC0) ∧ (0x80 ≤ b3 ∧ b3 < 0xC0) then
          if 0x10000 ≤ (b - 0xF0) * 262144 + (b1 - 0x80) * 4096 + (b2 - 0x80) * 64 + (b3 - 0x80) ∧
              (b - 0xF0) * 262144 + (b1 - 0x80) * 4096 + (b2 - 0x80) * 64 + (b3 - 0x80) ≤ 0x10FFFF then
            some (Char.ofNat
              ((b - 0xF0) * 262144 + (b1 - 0x80) * 4096 + (b2 - 0x80) * 64 + (b3 - 0x80)), rest3)
          else none
        else none
      | _ => none
    else none

/-- Fuelled decoding loop (the fuel is an upper bound on the number of
characters; each step consumes at least one byte). -/
def utf8Go : Nat → List Nat → Option (List Char)
  | _, [] => some []
  | 0, _ :: _ => none
  | fuel + 1, b :: rest =>
    match utf8DecodeChar (b :: rest) with
    | none => none
    | some (c, rest') => (utf8Go fuel rest').map (fun cs => c :: cs)

/-- Model of Rust `String::from_utf8`: the string whose UTF-8 encoding is
the given bytes, or `none` if the bytes are not valid UTF-8. -/
def utf8Decode (bs : List Nat) : Option String :=
  (utf8Go bs.length bs).map (fun cs => String.mk cs)

/-! ### msg.rs -/

/-- Model of msg.rs `is_valid_name`: the identifier's byte length must be
between 3 and 20 inclusive. -/
def is_valid_name (name : String) : Bool :=
  let bytes := utf8Encode name
  if bytes.length < 3 ∨ bytes.length > 20 then false else true

/-- Model of msg.rs `CreateMsg`. -/
structure CreateMsg where
  id : String
  expires : Expiration
deriving DecidableEq, Repr

/-- Model of msg.rs `ListResponse`. -/
structure ListResponse where
  auctions : List String
deriving DecidableEq, Repr

/-! ### contract.rs -/

/-- The one kind of outbound message the contract emits:
`CosmosMsg::Wasm(WasmMsg::Execute)` on the token contract
`contract_addr`, carrying `Cw20HandleMsg::Transfer { recipient, amount }`. -/
structure WasmExecuteTransfer where
  contract_addr : Addr
  recipient : Addr
  amount : Nat
deriving DecidableEq, Repr

/-- Model of cosmwasm `HandleResponse` (messages, log attributes, data). -/
structure HandleResponse where
  messages : List WasmExecuteTransfer
  log : List (String × String)
  data : Option String
deriving DecidableEq, Repr

/-- Model of contract.rs `send_tokens`: no message for an empty coin,
otherwise one cw20 transfer of the coin's amount to `to`, executed on the
coin's token contract. The `from` argument is ignored by the source too. -/
def send_tokens (_from dst : Addr) (coin : Cw20Coin) : List WasmExecuteTransfer :=
  if coin.is_empty then []
  else [{ contract_addr := coin.address, recipient := dst, amount := coin.amount }]

/-- Model of contract.rs `try_create`. -/
def try_create (s : Store) (env : Env) (msg : CreateMsg) (balance : Cw20Coin)
    (sender : Addr) : Except StdError (Store × HandleResponse) :=
  if ¬ is_valid_name msg.id then
    .error (.genericErr "Invalid auction id")
  else if msg.expires.is_expired env.block then
    .error (.genericErr "Expired auction")
  else
    let my_auction : Auction :=
      { winner := sender, source := sender, expires := msg.expires, balance := balance }
    match bucketUpdate (utf8Encode msg.id)
        (fun existing =>
          match existing with
          | none => .ok my_auction
          | some _ => .error (.genericErr "Auction already exists")) s with
    | .error e => .error e
    | .ok (s', _) =>
      .ok (s', { messages := [], log := [("action", "create"), ("id", msg.id)], data := none })

/-- Model of contract.rs `try_bid`. -/
def try_bid (s : Store) (env : Env) (token : Cw20Coin) (id : String)
    (sender : Addr) : Except StdError (Store × HandleResponse) :=
  match storeLoad (utf8Encode id) s with
  | none => .error (.notFound "cw20_bid_more::state::Auction")
  | some my_auction =>
    if my_auction.is_expired env.block then
      .error (.genericErr "Auction has already expired")
    else if my_auction.balance.address ≠ token.address then
      .error (.genericErr "Must use the same token address")
    else if my_auction.balance.amount ≥ token.amount then
      .error (.genericErr "Bid price not high enough")
    else
      let current_winner := my_auction.winner
      let messages := send_tokens env.contract_address current_winner my_auction.balance
      let auction_to_save : Auction :=
        { my_auction with winner := sender, balance := token }
      match bucketUpdate (utf8Encode id)
          (fun existing =>
            match existing with
            | none => .error (.genericErr "Auction does not exist")
            | some _ => .ok auction_to_save) s with
      | .error e => .error e
      | .ok (s', _) =>
        .ok (s', { messages := messages,
                   log := [("action", "bid"), ("id", id), ("by", sender)],
                   data := none })

/-- Host-level run of a Create: a failed operation commits nothing, so the
store is returned unchanged alongside the error. -/
def runCreate (s : Store) (env : Env) (msg : CreateMsg) (balance : Cw20Coin)
    (sender : Addr) : Store × Except StdError HandleResponse :=
  match try_create s env msg balance sender with
  | .ok (s', r) => (s', .ok r)
  | .error e => (s, .error e)

/-- Host-level run of a Bid: a failed operation commits nothing. -/
def runBid (s : Store) (env : Env) (token : Cw20Coin) (id : String)
    (sender : Addr) : Store × Except StdError HandleResponse :=
  match try_bid s env token id sender with
  | .ok (s', r) => (s', .ok r)
  | .error e => (s, .error e)

/-! ### state.rs `all_auction_ids` and contract.rs `query_list` -/

/-- Whether a key lies at or after the (inclusive) range start. -/
def inRange (start : Option (List Nat)) (k : List Nat) : Bool :=
  match start with
  | none => true
  | some st => ¬ keyLt k st

/-- Model of cw0 `calc_range_start_string`: the range start that excludes
the given identifier itself, by appending a byte to its UTF-8 bytes. -/
def calc_range_start_string (start_after : Option String) : Option (List Nat) :=
  start_after.map (fun token => utf8Encode token ++ [1])

/-- Decode each raw key with `String::from_utf8`, short-circuiting on the
first invalid key (Rust's `collect::<StdResult<Vec<_>>>`). -/
def decodeIds : List (List Nat) → Except StdError (List String)
  | [] => .ok []
  | k :: rest =>
    match utf8Decode k with
    | none => .error (.invalidUtf8 "Parsing auction id")
    | some s =>
      match decodeIds rest with
      | .ok ss => .ok (s :: ss)
      | .error e => .error e

/-- The keys a range scan enumerates: those at or after `start`, in store
order, truncated to `limit`. -/
def rangeKeys (s : Store) (start : Option (List Nat)) (limit : Nat) : List (List Nat) :=
  ((s.map Prod.fst).filter (inRange start)).take limit

/-- Model of state.rs `all_auction_ids`: scan at most `limit` keys from
`start` and decode each back into an identifier string. -/
def all_auction_ids (s : Store) (start : Option (List Nat)) (limit : Nat) :
    Except StdError (List String) :=
  decodeIds (rangeKeys s start limit)

/-- Pagination cap (contract.rs `MAX_LIMIT`). -/
def MAX_LIMIT : Nat := 30

/-- Pagination default (contract.rs `DEFAULT_LIMIT`). -/
def DEFAULT_LIMIT : Nat := 10

/-- Model of contract.rs `query_list`. -/
def query_list (s : Store) (start_after : Option String) (limit : Option Nat) :
    Except StdError ListResponse :=
  let start := calc_range_start_string start_after
  let lim := min (limit.getD DEFAULT_LIMIT) MAX_LIMIT
  match all_auction_ids s start lim with
  | .ok ids => .ok { auctions := ids }
  | .error e => .error e

/-! ### Concrete fixtures used by closed instances -/

/-- Execution environment used by the concrete pagination example. -/
def exampleEnv : Env :=
  { block := { height := 100, time := 0, chain_id := "testing" },
    contract_address := "cosmos2contract" }

/-- Escrow coin used by the concrete pagination example. -/
def exampleCoin : Cw20Coin := { address := "tokenA", amount := 100 }

/-- The three-auction store of the spec's pagination example, built by three
Creates of "zen", "lazy", "assign" in that order. -/
def exampleStore : Store :=
  (runCreate
    (runCreate
      (runCreate [] exampleEnv { id := "zen", expires := .atHeight 123456 } exampleCoin
        "alice").1
      exampleEnv { id := "lazy", expires := .atHeight 123456 } exampleCoin "alice").1
    exampleEnv { id := "assign", expires := .atHeight 123456 } exampleCoin "alice").1

/-- A concrete auction record used in the closed instances below. -/
def auctionA : Auction :=
  { winner := "alice", source := "alice", expires := .atHeight 100,
    balance := { address := "tokA", amount := 100 } }

/-- A concrete single-auction store keyed by "abc". -/
def storeA : Store := [(utf8Encode "abc", auctionA)]

/-- A concrete environment at block height 5 (auctionA not yet expired). -/
def envLow : Env :=
  { block := { height := 5, time := 5, chain_id := "testing" }, contract_address := "c" }

/-- A concrete environment at block height 200 (auctionA already expired). -/
def envHigh : Env :=
  { block := { height := 200, time := 5, chain_id := "testing" }, contract_address := "c" }

/-! ### Order lemmas for `keyLt` -/

theorem keyLt_cons (x y : Nat) (xs ys : List Nat) :
    keyLt (x :: xs) (y :: ys) = true ↔ x < y ∨ (x = y ∧ keyLt xs ys = true) := by
  simp only [keyLt]
  split_ifs with h1 h2 <;> simp_all

theorem keyLt_irrefl (k : List Nat) : keyLt k k = false := by
  induction k with
  | nil => rfl
  | cons a as ih => simp [keyLt, ih]

theorem keyLt_trans {a b c : List Nat} (h1 : keyLt a b = true) (h2 : keyLt b c = true) :
    keyLt a c = true := by
  induction a generalizing b c with
  | nil =>
    cases b with
    | nil => simp [keyLt] at h1
    | cons y ys =>
      cases c with
      | nil => simp [keyLt] at h2
      | cons z zs => simp [keyLt]
  | cons x xs ih =>
    cases b with
    | nil => simp [keyLt] at h1
    | cons y ys =>
      cases c with
      | nil => simp [keyLt] at h2
      | cons z zs =>
        rw [keyLt_cons] at h1 h2 ⊢
        rcases h1 with h | ⟨rfl, h⟩ <;> rcases h2 with h' | ⟨rfl, h'⟩
        · exact Or.inl (lt_trans h h')
        · exact Or.inl h
        · exact Or.inl h'
        · exact Or.inr ⟨rfl, ih h h'⟩

theorem keyLt_conn {a b : List Nat} (h1 : keyLt a b = false) (h2 : keyLt b a = false) :
    a = b := by
  induction a generalizing b with
  | nil =>
    cases b with
    | nil => rfl
    | cons y ys => simp [keyLt] at h1
  | cons x xs ih =>
    cases b with
    | nil => simp [keyLt] at h2
    | cons y ys =>
      have h1' : ¬ (x < y ∨ (x = y ∧ keyLt xs ys = true)) := by
        rw [← keyLt_cons x y xs ys]; simp [h1]
      have h2' : ¬ (y < x ∨ (y = x ∧ keyLt ys xs = true)) := by
        rw [← keyLt_cons y x ys xs]; simp [h2]
      push_neg at h1' h2'
      have hxy : x = y := by omega
      subst hxy
      have hxs : keyLt xs ys = false := Bool.eq_false_iff.mpr (h1'.2 rfl)
      have hys : keyLt ys xs = false := Bool.eq_false_iff.mpr (h2'.2 rfl)
      rw [ih hxs hys]

theorem keyLt_append (k : List Nat) (b : Nat) (bs : List Nat) :
    keyLt k (k ++ b :: bs) = true := by
  induction k with
  | nil => rfl
  | cons x xs ih => simp [keyLt, ih]

/-! ### Store lemmas -/

theorem storeLoad_insert_self (k : List Nat) (v : Auction) (s : Store) :
    storeLoad k (storeInsert k v s) = some v := by
  induction s with
  | nil => simp [storeInsert, storeLoad]
  | cons p rest ih =>
    obtain ⟨k', v'⟩ := p
    simp only [storeInsert]
    split_ifs with h1 h2
    · simp [storeLoad]
    · simp [storeLoad]
    · simp [storeLoad, h2, ih]

theorem mem_storeInsert {p : List Nat × Auction} {k : List Nat} {v : Auction} {s : Store}
    (h : p ∈ storeInsert k v s) : p.1 = k ∨ p ∈ s := by
  induction s with
  | nil =>
    simp only [storeInsert, List.mem_singleton] at h
    subst h; exact Or.inl rfl
  | cons q rest ih =>
    obtain ⟨k', v'⟩ := q
    simp only [storeInsert] at h
    split_ifs at h with h1 h2
    · rcases List.mem_cons.mp h with rfl | h'
      · exact Or.inl rfl
      · exact Or.inr h'
    · rcases List.mem_cons.mp h with rfl | h'
      · exact Or.inl rfl
      · exact Or.inr (List.mem_cons_of_mem _ h')
    · rcases List.mem_cons.mp h with rfl | h'
      · exact Or.inr (List.mem_cons_self _ _)
      · rcases ih h' with hk | hmem
        · exact Or.inl hk
        · exact Or.inr (List.mem_cons_of_mem _ hmem)

theorem storeSorted_insert {s : Store} (k : List Nat) (v : Auction) (hs : storeSorted s) :
    storeSorted (storeInsert k v s) := by
  induction s with
  | nil => simp [storeInsert, storeSorted]
  | cons p rest ih =>
    obtain ⟨k', v'⟩ := p
    rw [storeSorted, List.pairwise_cons] at hs
    simp only [storeInsert]
    split_ifs with h1 h2
    · refine List.Pairwise.cons ?_ (List.Pairwise.cons hs.1 hs.2)
      intro q hq
      rcases List.mem_cons.mp hq with rfl | hq'
      · exact h1
      · exact keyLt_trans h1 (hs.1 q hq')
    · subst h2
      exact List.Pairwise.cons hs.1 hs.2
    · refine List.Pairwise.cons ?_ (ih hs.2)
      intro q hq
      rcases mem_storeInsert hq with hqk | hqmem
      · rw [hqk]
        cases hkk : keyLt k' k with
        | true => rfl
        | false =>
          have h1' : keyLt k k' = false := Bool.eq_false_iff.mpr h1
          exact absurd (keyLt_conn h1' hkk) h2
      · exact hs.1 q hqmem

theorem bucketUpdate_sorted {k : List Nat} {act : Option Auction → Except StdError Auction}
    {s s' : Store} {v : Auction} (h : bucketUpdate k act s = .ok (s', v))
    (hs : storeSorted s) : storeSorted s' := by
  unfold bucketUpdate at h
  cases hact : act (storeLoad k s) with
  | ok w =>
    rw [hact] at h
    injection h with h'
    obtain ⟨h1, _⟩ := Prod.mk.injEq .. ▸ h'
    rw [← h1]
    exact storeSorted_insert k w hs
  | error e => rw [hact] at h; cases h

/-! ### UTF-8 roundtrip lemmas -/

theorem toNat_ofNat_of_valid {n : Nat} (h : n.isValidChar) : (Char.ofNat n).toNat = n := by
  rw [Char.ofNat, dif_pos h]
  rfl

set_option maxHeartbeats 1000000 in
set_option maxRecDepth 4096 in
theorem utf8DecodeChar_spec {bs rest : List Nat} {c : Char}
    (h : utf8DecodeChar bs = some (c, rest)) :
    utf8EncodeChar c ++ rest = bs := by
  match bs with
  | [] => simp [utf8DecodeChar] at h
  | b :: tl =>
    simp only [utf8DecodeChar] at h
    repeat' split at h
    all_goals (try cases h)
    · have hval : Nat.isValidChar b := Or.inl (by omega)
      simp only [utf8EncodeChar, toNat_ofNat_of_valid hval]
      rw [if_pos (by omega)]
      simp
    · rename_i b1 hg hcp
      have hval : Nat.isValidChar ((b - 192) * 64 + (b1 - 128)) := Or.inl (by omega)
      simp only [utf8EncodeChar, toNat_ofNat_of_valid hval]
      rw [if_neg (by omega), if_pos (by omega)]
      simp only [List.cons_append, List.nil_append, List.cons.injEq]
      refine ⟨by omega, by omega, trivial⟩
    · rename_i b1 b2 hg hcp
      have hval : Nat.isValidChar ((b - 224) * 4096 + (b1 - 128) * 64 + (b2 - 128)) := by
        rw [Nat.isValidChar]; omega
      simp only [utf8EncodeChar, toNat_ofNat_of_valid hval]
      rw [if_neg (by omega), if_neg (by omega), if_pos (by omega)]
      simp only [List.cons_append, List.nil_append, List.cons.injEq]
      refine ⟨by omega, by omega, by omega, trivial⟩
    · rename_i b1 b2 b3 hg hcp
      have hval : Nat.isValidChar
          ((b - 240) * 262144 + (b1 - 128) * 4096 + (b2 - 128) * 64 + (b3 - 128)) := by
        rw [Nat.isValidChar]; omega
      simp only [utf8EncodeChar, toNat_ofNat_of_valid hval]
      rw [if_neg (by omega), if_neg (by omega), if_neg (by omega)]
      simp only [List.cons_append, List.nil_append, List.cons.injEq]
      refine ⟨by omega, by omega, by omega, by omega, trivial⟩
theorem utf8Go_spec {fuel : Nat} : ∀ {bs : List Nat} {cs : List Char},
    utf8Go fuel bs = some cs → cs.flatMap utf8EncodeChar = bs := by
  induction fuel with
  | zero =>
    intro bs cs h
    cases bs with
    | nil =>
      simp only [utf8Go] at h
      injection h with h'
      subst h'; rfl
    | cons b tl => simp [utf8Go] at h
  | succ n ih =>
    intro bs cs h
    cases bs with
    | nil =>
      simp only [utf8Go] at h
      injection h with h'
      subst h'; rfl
    | cons b tl =>
      simp only [utf8Go] at h
      cases hd : utf8DecodeChar (b :: tl) with
      | none => rw [hd] at h; cases h
      | some p =>
        obtain ⟨c, rest'⟩ := p
        rw [hd] at h
        obtain ⟨cs', hgo, rfl⟩ := Option.map_eq_some'.mp h
        have hrest := ih hgo
        have henc := utf8DecodeChar_spec hd
        simp only [List.flatMap_cons, hrest, henc]

theorem utf8Decode_spec {bs : List Nat} {s : String} (h : utf8Decode bs = some s) :
    utf8Encode s = bs := by
  unfold utf8Decode at h
  obtain ⟨cs, hgo, rfl⟩ := Option.map_eq_some'.mp h
  show cs.flatMap utf8EncodeChar = bs
  exact utf8Go_spec hgo

theorem decodeIds_ok {ks : List (List Nat)} {ids : List String}
    (h : decodeIds ks = .ok ids) : ks = ids.map utf8Encode := by
  induction ks generalizing ids with
  | nil =>
    simp only [decodeIds] at h
    injection h with h'
    subst h'; rfl
  | cons k rest ih =>
    simp only [decodeIds] at h
    cases hd : utf8Decode k with
    | none => rw [hd] at h; cases h
    | some s =>
      rw [hd] at h
      cases hr : decodeIds rest with
      | ok ss =>
        rw [hr] at h
        injection h with h'
        subst h'
        simp only [List.map_cons]
        rw [utf8Decode_spec hd, ← ih hr]
      | error e => rw [hr] at h; cases h

theorem decodeIds_error {ks : List (List Nat)} (h : ∃ k ∈ ks, utf8Decode k = none) :
    decodeIds ks = .error (.invalidUtf8 "Parsing auction id") := by
  induction ks with
  | nil => simp at h
  | cons k rest ih =>
    obtain ⟨k', hk', hnone⟩ := h
    rcases List.mem_cons.mp hk' with rfl | hmem
    · simp [decodeIds, hnone]
    · simp only [decodeIds]
      cases hd : utf8Decode k with
      | none => rfl
      | some s => rw [ih ⟨k', hmem, hnone⟩]

/-! ### Anatomy of try_bid and try_create, and the claims -/

theorem try_bid_ok (s : Store) (env : Env) (token : Cw20Coin) (id : String) (sender : Addr)
    (a : Auction) (hload : storeLoad (utf8Encode id) s = some a)
    (hexp : a.is_expired env.block = false)
    (htok : a.balance.address = token.address)
    (hamt : a.balance.amount < token.amount) :
    try_bid s env token id sender =
      .ok (storeInsert (utf8Encode id) { a with winner := sender, balance := token } s,
           { messages := send_tokens env.contract_address a.winner a.balance,
             log := [("action", "bid"), ("id", id), ("by", sender)], data := none }) := by
  unfold try_bid
  rw [hload]
  simp only [hexp, Bool.false_eq_true, if_false]
  rw [if_neg (by simp [htok])]
  rw [if_neg (by omega)]
  unfold bucketUpdate
  rw [hload]
theorem try_bid_notFound {s : Store} {env : Env} {token : Cw20Coin} {id : String} {sender : Addr}
    (h : storeLoad (utf8Encode id) s = none) :
    try_bid s env token id sender = .error (.notFound "cw20_bid_more::state::Auction") := by
  unfold try_bid
  rw [h]

theorem try_bid_expired {s : Store} {env : Env} {token : Cw20Coin} {id : String} {sender : Addr}
    {a : Auction} (hload : storeLoad (utf8Encode id) s = some a)
    (hexp : a.is_expired env.block = true) :
    try_bid s env token id sender = .error (.genericErr "Auction has already expired") := by
  unfold try_bid
  rw [hload]
  simp [hexp]

theorem try_bid_mismatch {s : Store} {env : Env} {token : Cw20Coin} {id : String} {sender : Addr}
    {a : Auction} (hload : storeLoad (utf8Encode id) s = some a)
    (hexp : a.is_expired env.block = false)
    (htok : a.balance.address ≠ token.address) :
    try_bid s env token id sender = .error (.genericErr "Must use the same token address") := by
  unfold try_bid
  rw [hload]
  simp [hexp, htok]

theorem try_bid_too_low {s : Store} {env : Env} {token : Cw20Coin} {id : String} {sender : Addr}
    {a : Auction} (hload : storeLoad (utf8Encode id) s = some a)
    (hexp : a.is_expired env.block = false)
    (htok : a.balance.address = token.address)
    (hamt : token.amount ≤ a.balance.amount) :
    try_bid s env token id sender = .error (.genericErr "Bid price not high enough") := by
  unfold try_bid
  rw [hload]
  simp [hexp, htok, hamt]

theorem try_create_invalid {s : Store} {env : Env} {msg : CreateMsg} {bal : Cw20Coin}
    {sender : Addr} (hv : is_valid_name msg.id = false) :
    try_create s env msg bal sender = .error (.genericErr "Invalid auction id") := by
  unfold try_create
  simp [hv]

theorem try_create_expired {s : Store} {env : Env} {msg : CreateMsg} {bal : Cw20Coin}
    {sender : Addr} (hv : is_valid_name msg.id = true)
    (hexp : msg.expires.is_expired env.block = true) :
    try_create s env msg bal sender = .error (.genericErr "Expired auction") := by
  unfold try_create
  simp [hv, hexp]

theorem try_create_exists {s : Store} {env : Env} {msg : CreateMsg} {bal : Cw20Coin}
    {sender : Addr} {a : Auction} (hv : is_valid_name msg.id = true)
    (hexp : msg.expires.is_expired env.block = false)
    (hload : storeLoad (utf8Encode msg.id) s = some a) :
    try_create s env msg bal sender = .error (.genericErr "Auction already exists") := by
  unfold try_create bucketUpdate
  rw [hload]
  simp [hv, hexp]

theorem try_create_ok {s : Store} {env : Env} {msg : CreateMsg} {bal : Cw20Coin}
    {sender : Addr} (hv : is_valid_name msg.id = true)
    (hexp : msg.expires.is_expired env.block = false)
    (hload : storeLoad (utf8Encode msg.id) s = none) :
    try_create s env msg bal sender =
      .ok (storeInsert (utf8Encode msg.id)
             { winner := sender, source := sender, expires := msg.expires, balance := bal } s,
           { messages := [], log := [("action", "create"), ("id", msg.id)], data := none }) := by
  unfold try_create bucketUpdate
  rw [hload]
  simp [hv, hexp]
theorem try_bid_ok_inv {s : Store} {env : Env} {token : Cw20Coin} {id : String} {sender : Addr}
    {s' : Store} {resp : HandleResponse}
    (hbid : try_bid s env token id sender = .ok (s', resp)) :
    ∃ a, storeLoad (utf8Encode id) s = some a ∧
      a.is_expired env.block = false ∧
      a.balance.address = token.address ∧
      a.balance.amount < token.amount ∧
      s' = storeInsert (utf8Encode id) { a with winner := sender, balance := token } s ∧
      resp = { messages := send_tokens env.contract_address a.winner a.balance,
               log := [("action", "bid"), ("id", id), ("by", sender)], data := none } := by
  cases hload : storeLoad (utf8Encode id) s with
  | none => rw [try_bid_notFound hload] at hbid; cases hbid
  | some a =>
    by_cases hexp : a.is_expired env.block = true
    · rw [try_bid_expired hload hexp] at hbid; cases hbid
    · have hexp' : a.is_expired env.block = false := by simpa using hexp
      by_cases htok : a.balance.address = token.address
      · by_cases hamt : token.amount ≤ a.balance.amount
        · rw [try_bid_too_low hload hexp' htok hamt] at hbid; cases hbid
        · have hlt : a.balance.amount < token.amount := by omega
          rw [try_bid_ok s env token id sender a hload hexp' htok hlt] at hbid
          injection hbid with h'
          obtain ⟨h1, h2⟩ := Prod.mk.injEq .. ▸ h'
          exact ⟨a, rfl, hexp', htok, hlt, h1.symm, h2.symm⟩
      · rw [try_bid_mismatch hload hexp' htok] at hbid; cases hbid
/-- Claim C1: for every accepted Bid, each emitted transfer instruction pays the
pre-bid stored balance (amount and token address) to the pre-bid stored winner,
and the record stored afterwards has the bidder as winner, the bid coin as
balance, and the pre-bid source and expires unchanged. -/
theorem claim_C1 (s : Store) (env : Env) (token : Cw20Coin) (id : String) (sender : Addr)
    (a : Auction) (s' : Store) (resp : HandleResponse)
    (hload : storeLoad (utf8Encode id) s = some a)
    (hbid : try_bid s env token id sender = .ok (s', resp)) :
    (∀ m ∈ resp.messages, m.recipient = a.winner ∧ m.amount = a.balance.amount ∧
        m.contract_addr = a.balance.address) ∧
    storeLoad (utf8Encode id) s' =
      some { winner := sender, source := a.source, expires := a.expires, balance := token } := by
  obtain ⟨a', hload', hexp, htok, hamt, hs', hresp⟩ := try_bid_ok_inv hbid
  rw [hload] at hload'
  injection hload' with ha
  subst ha
  subst hs'
  subst hresp
  constructor
  · intro m hm
    unfold send_tokens at hm
    split_ifs at hm with he
    · simp at hm
    · simp only [List.mem_singleton] at hm
      subst hm
      exact ⟨rfl, rfl, rfl⟩
  · exact storeLoad_insert_self _ _ _
/-- Claim C6: every accepted Bid emits exactly one outbound transfer instruction
when the pre-bid escrowed balance is non-zero, and exactly zero when it is
empty; the response only carries the instruction, the state machine moves no
funds itself. -/
theorem claim_C6 (s : Store) (env : Env) (token : Cw20Coin) (id : String) (sender : Addr)
    (a : Auction) (s' : Store) (resp : HandleResponse)
    (hload : storeLoad (utf8Encode id) s = some a)
    (hbid : try_bid s env token id sender = .ok (s', resp)) :
    (a.balance.amount ≠ 0 → resp.messages.length = 1) ∧
    (a.balance.amount = 0 → resp.messages = []) := by
  obtain ⟨a', hload', hexp, htok, hamt, hs', hresp⟩ := try_bid_ok_inv hbid
  rw [hload] at hload'
  injection hload' with ha
  subst ha
  subst hresp
  constructor
  · intro hne
    simp [send_tokens, Cw20Coin.is_empty, hne]
  · intro hz
    simp [send_tokens, Cw20Coin.is_empty, hz]

/-- Claim C8: a Bid by the auction's current winner is accepted under the same
preconditions as any other bid; the stored winner stays that same address, the
balance is replaced by the higher bid, and the emitted transfer pays the
previous balance back to that same address. -/
theorem claim_C8 (s : Store) (env : Env) (token : Cw20Coin) (id : String) (sender : Addr)
    (a : Auction) (hload : storeLoad (utf8Encode id) s = some a)
    (hself : sender = a.winner)
    (hexp : a.is_expired env.block = false)
    (htok : a.balance.address = token.address)
    (hamt : a.balance.amount < token.amount) :
    try_bid s env token id sender =
      .ok (storeInsert (utf8Encode id) { a with winner := sender, balance := token } s,
           { messages := send_tokens env.contract_address a.winner a.balance,
             log := [("action", "bid"), ("id", id), ("by", sender)], data := none }) ∧
    storeLoad (utf8Encode id)
        (storeInsert (utf8Encode id) { a with winner := sender, balance := token } s) =
      some { winner := a.winner, source := a.source, expires := a.expires, balance := token } ∧
    (∀ m ∈ send_tokens env.contract_address a.winner a.balance,
      m.recipient = sender ∧ m.amount = a.balance.amount) := by
  refine ⟨try_bid_ok s env token id sender a hload hexp htok hamt, ?_, ?_⟩
  · rw [storeLoad_insert_self]
    rw [hself]
  · intro m hm
    unfold send_tokens at hm
    split_ifs at hm with he
    · simp at hm
    · simp only [List.mem_singleton] at hm
      subst hm
      exact ⟨hself.symm, rfl⟩

/-- Claim C9: the "Auction does not exist" branch inside Bid's conditional
update is unreachable: the record was loaded earlier in the same sequential
operation and nothing deletes it, so try_bid never returns that error. -/
theorem claim_C9 (s : Store) (env : Env) (token : Cw20Coin) (id : String) (sender : Addr) :
    try_bid s env token id sender ≠ .error (.genericErr "Auction does not exist") := by
  intro h
  cases hload : storeLoad (utf8Encode id) s with
  | none =>
    rw [try_bid_notFound hload] at h
    injection h with h'
    cases h'
  | some a =>
    by_cases hexp : a.is_expired env.block = true
    · rw [try_bid_expired hload hexp] at h
      injection h with h'
      injection h' with h''
      exact absurd h'' (by decide)
    · have hexp' : a.is_expired env.block = false := by simpa using hexp
      by_cases htok : a.balance.address = token.address
      · by_cases hamt : token.amount ≤ a.balance.amount
        · rw [try_bid_too_low hload hexp' htok hamt] at h
          injection h with h'
          injection h' with h''
          exact absurd h'' (by decide)
        · have hlt : a.balance.amount < token.amount := by omega
          rw [try_bid_ok s env token id sender a hload hexp' htok hlt] at h
          cases h
      · rw [try_bid_mismatch hload hexp' htok] at h
        injection h with h'
        injection h' with h''
        exact absurd h'' (by decide)

/-- Claim C10: a List query with an explicit limit of 0 succeeds and returns an
empty identifier list, for every store and start bound: the limit is capped
from above at 30 but never raised to a minimum. -/
theorem claim_C10 (s : Store) (sa : Option String) :
    query_list s sa (some 0) = .ok { auctions := [] } := by
  unfold query_list all_auction_ids rangeKeys
  simp [decodeIds, DEFAULT_LIMIT, MAX_LIMIT]
/-- Claim C2 (amended): for every existing auction, a Bid whose amount is at
most the stored balance amount is rejected and leaves the store unchanged —
with BidTooLow when it passes the earlier expiration and token checks (an
expired auction or a token mismatch is reported with that earlier error
instead) — and every accepted bid stores a strictly larger balance amount,
so the stored amount strictly increases across accepted bids. -/
theorem claim_C2 (s : Store) (env : Env) (token : Cw20Coin) (id : String) (sender : Addr)
    (a : Auction) (hload : storeLoad (utf8Encode id) s = some a) :
    (token.amount ≤ a.balance.amount →
      (runBid s env token id sender).1 = s ∧
      (∃ e, (runBid s env token id sender).2 = .error e) ∧
      (a.is_expired env.block = false → a.balance.address = token.address →
        (runBid s env token id sender).2 = .error (.genericErr "Bid price not high enough"))) ∧
    (∀ s' resp, try_bid s env token id sender = .ok (s', resp) →
      ∀ a', storeLoad (utf8Encode id) s' = some a' →
        a.balance.amount < a'.balance.amount) := by
  constructor
  · intro hlow
    have herr : ∃ e, try_bid s env token id sender = .error e := by
      by_cases hexp : a.is_expired env.block = true
      · exact ⟨_, try_bid_expired hload hexp⟩
      · have hexp' : a.is_expired env.block = false := by simpa using hexp
        by_cases htok : a.balance.address = token.address
        · exact ⟨_, try_bid_too_low hload hexp' htok hlow⟩
        · exact ⟨_, try_bid_mismatch hload hexp' htok⟩
    obtain ⟨e, he⟩ := herr
    refine ⟨?_, ⟨e, ?_⟩, ?_⟩
    · unfold runBid; rw [he]
    · unfold runBid; rw [he]
    · intro hexp' htok
      unfold runBid; rw [try_bid_too_low hload hexp' htok hlow]
  · intro s' resp hbid a' hload'
    obtain ⟨a0, hload0, hexp, htok, hamt, hs', hresp⟩ := try_bid_ok_inv hbid
    rw [hload] at hload0
    injection hload0 with ha
    subst ha
    subst hs'
    rw [storeLoad_insert_self] at hload'
    injection hload' with ha'
    rw [← ha']
    exact hamt

/-- Claim C3: Bid preconditions are evaluated in the fixed order record
existence, expiration, token equality, strict amount comparison; the first
failure determines the returned error and leaves the store unchanged. -/
theorem claim_C3 (s : Store) (env : Env) (token : Cw20Coin) (id : String) (sender : Addr) :
    (storeLoad (utf8Encode id) s = none →
      runBid s env token id sender = (s, .error (.notFound "cw20_bid_more::state::Auction"))) ∧
    (∀ a, storeLoad (utf8Encode id) s = some a →
      (a.is_expired env.block = true →
        runBid s env token id sender = (s, .error (.genericErr "Auction has already expired"))) ∧
      (a.is_expired env.block = false → a.balance.address ≠ token.address →
        runBid s env token id sender = (s, .error (.genericErr "Must use the same token address"))) ∧
      (a.is_expired env.block = false → a.balance.address = token.address →
        token.amount ≤ a.balance.amount →
        runBid s env token id sender = (s, .error (.genericErr "Bid price not high enough")))) := by
  refine ⟨?_, ?_⟩
  · intro h
    unfold runBid; rw [try_bid_notFound h]
  · intro a hload
    refine ⟨?_, ?_, ?_⟩
    · intro hexp
      unfold runBid; rw [try_bid_expired hload hexp]
    · intro hexp htok
      unfold runBid; rw [try_bid_mismatch hload hexp htok]
    · intro hexp htok hamt
      unfold runBid; rw [try_bid_too_low hload hexp htok hamt]

/-- Claim C4 (amended): Create fails exactly when the identifier's byte length
is outside 3..20 (InvalidIdentifier), the expiration given in the payload has
already elapsed (AlreadyExpired), or a record with that identifier already
exists (AlreadyExists), checked in that order; a later Create on an existing
identifier fails with AlreadyExists and leaves the store unchanged whenever
its payload's expiration has not already elapsed, while a later Create whose
payload expiration has elapsed still fails and still leaves the store
unchanged, but with the AlreadyExpired error. -/
theorem claim_C4 (s : Store) (env : Env) (msg : CreateMsg) (bal : Cw20Coin) (sender : Addr) :
    (is_valid_name msg.id = false →
      runCreate s env msg bal sender = (s, .error (.genericErr "Invalid auction id"))) ∧
    (is_valid_name msg.id = true → msg.expires.is_expired env.block = true →
      runCreate s env msg bal sender = (s, .error (.genericErr "Expired auction"))) ∧
    (∀ a, is_valid_name msg.id = true → msg.expires.is_expired env.block = false →
      storeLoad (utf8Encode msg.id) s = some a →
      runCreate s env msg bal sender = (s, .error (.genericErr "Auction already exists"))) ∧
    (is_valid_name msg.id = true → msg.expires.is_expired env.block = false →
      storeLoad (utf8Encode msg.id) s = none →
      runCreate s env msg bal sender =
        (storeInsert (utf8Encode msg.id)
            { winner := sender, source := sender, expires := msg.expires, balance := bal } s,
         .ok { messages := [], log := [("action", "create"), ("id", msg.id)], data := none })) := by
  refine ⟨?_, ?_, ?_, ?_⟩
  · intro hv
    unfold runCreate; rw [try_create_invalid hv]
  · intro hv hexp
    unfold runCreate; rw [try_create_expired hv hexp]
  · intro a hv hexp hload
    unfold runCreate; rw [try_create_exists hv hexp hload]
  · intro hv hexp hload
    unfold runCreate; rw [try_create_ok hv hexp hload]
theorem rangeKeys_pairwise {s : Store} (hs : storeSorted s) (start : Option (List Nat))
    (limit : Nat) :
    List.Pairwise (fun k1 k2 => keyLt k1 k2 = true) (rangeKeys s start limit) := by
  unfold rangeKeys
  have h1 : List.Pairwise (fun k1 k2 => keyLt k1 k2 = true) (s.map Prod.fst) :=
    List.pairwise_map.mpr hs
  exact (h1.filter (inRange start)).sublist (List.take_sublist _ _)

/-- Claim C5: a List query returns identifiers in ascending lexicographic byte
order, at most min(limit, 30) of them (10 when the limit is unspecified),
never includes the start_after identifier itself, and after Creates of "zen",
"lazy", "assign" an unbounded list returns ["assign", "lazy", "zen"]. -/
theorem claim_C5 (s : Store) (hs : storeSorted s) (sa : Option String) (lim : Option Nat)
    (ids : List String)
    (h : query_list s sa lim = .ok { auctions := ids }) :
    List.Pairwise (fun a b => keyLt (utf8Encode a) (utf8Encode b) = true) ids ∧
    ids.length ≤ min (lim.getD 10) 30 ∧
    (∀ k, sa = some k → k ∉ ids) ∧
    query_list exampleStore none none = .ok { auctions := ["assign", "lazy", "zen"] } := by
  simp only [query_list] at h
  cases hq : all_auction_ids s (calc_range_start_string sa)
      (min (lim.getD DEFAULT_LIMIT) MAX_LIMIT) with
  | error e => rw [hq] at h; cases h
  | ok ids' =>
    rw [hq] at h
    injection h with h'
    have hids : ids' = ids := congrArg ListResponse.auctions h'
    subst hids
    unfold all_auction_ids at hq
    have hks := decodeIds_ok hq
    refine ⟨?_, ?_, ?_, by rfl⟩
    · have hp := rangeKeys_pairwise hs (calc_range_start_string sa)
        (min (lim.getD DEFAULT_LIMIT) MAX_LIMIT)
      rw [hks] at hp
      exact List.pairwise_map.mp hp
    · have hlen : (rangeKeys s (calc_range_start_string sa)
          (min (lim.getD DEFAULT_LIMIT) MAX_LIMIT)).length ≤
          min (lim.getD DEFAULT_LIMIT) MAX_LIMIT := List.length_take_le _ _
      rw [hks] at hlen
      simpa [DEFAULT_LIMIT, MAX_LIMIT] using hlen
    · intro k hk hmem
      have hkk : utf8Encode k ∈ rangeKeys s (calc_range_start_string sa)
          (min (lim.getD DEFAULT_LIMIT) MAX_LIMIT) := by
        rw [hks]
        exact List.mem_map_of_mem _ hmem
      unfold rangeKeys at hkk
      have hfilter := List.mem_of_mem_take hkk
      have hin := (List.mem_filter.mp hfilter).2
      rw [hk] at hin
      simp [calc_range_start_string, inRange, keyLt_append] at hin

/-- Claim C7 (amended): if any key among those a List call actually enumerates
(at or after the range start, truncated to the limit) is not valid UTF-8, the
whole call fails with the invalid-utf8 CorruptState error — no partial list is
returned; corrupt keys outside that window are not examined. -/
theorem claim_C7 (s : Store) (start : Option (List Nat)) (limit : Nat)
    (h : ∃ k ∈ rangeKeys s start limit, utf8Decode k = none) :
    all_auction_ids s start limit = .error (.invalidUtf8 "Parsing auction id") := by
  unfold all_auction_ids
  exact decodeIds_error h
/-- Counterexample to claim C2 as stated: a bid of 50 on an expired auction
holding 100 is rejected, but with the AuctionExpired error, not BidTooLow. -/
theorem claim_C2_counterexample :
    50 ≤ auctionA.balance.amount ∧
    runBid storeA envHigh { address := "tokA", amount := 50 } "abc" "bob" =
      (storeA, .error (.genericErr "Auction has already expired")) ∧
    StdError.genericErr "Auction has already expired" ≠
      StdError.genericErr "Bid price not high enough" :=
  ⟨by decide, by rfl, by decide⟩

/-- Counterexample to claim C4 as stated: a second Create for the existing
identifier "abc" whose payload expiration has already elapsed fails with the
AlreadyExpired error, not AlreadyExists — so a later Create with the same
identifier does not fail with AlreadyExists regardless of payload. -/
theorem claim_C4_counterexample :
    storeLoad (utf8Encode "abc") storeA = some auctionA ∧
    runCreate storeA envLow { id := "abc", expires := .atHeight 1 }
        { address := "tokB", amount := 7 } "bob" =
      (storeA, .error (.genericErr "Expired auction")) ∧
    StdError.genericErr "Expired auction" ≠ StdError.genericErr "Auction already exists" :=
  ⟨by rfl, by rfl, by decide⟩

/-- Counterexample to claim C7 as stated: the store holds the undecodable key
[255], yet a List call with limit 1 succeeds and returns a partial list,
because the corrupt key lies beyond the scanned window. -/
theorem claim_C7_counterexample :
    storeSorted [([97, 97, 97], auctionA), ([255], auctionA)] ∧
    utf8Decode [255] = none ∧
    all_auction_ids [([97, 97, 97], auctionA), ([255], auctionA)] none 1 = .ok ["aaa"] :=
  ⟨by decide, by rfl, by rfl⟩

/-- Witness for claim C1 at a concrete accepted bid. -/
theorem claim_C1_witness :
    storeLoad (utf8Encode "abc")
        (storeInsert (utf8Encode "abc")
          { winner := "bob", source := "alice", expires := .atHeight 100,
            balance := { address := "tokA", amount := 150 } } storeA) =
      some { winner := "bob", source := auctionA.source, expires := auctionA.expires,
             balance := { address := "tokA", amount := 150 } } :=
  (claim_C1 storeA envLow { address := "tokA", amount := 150 } "abc" "bob" auctionA _ _
    rfl rfl).2

/-- Witness for claim C2 at a concrete too-low bid on a live auction. -/
theorem claim_C2_witness :
    (runBid storeA envLow { address := "tokA", amount := 50 } "abc" "bob").2 =
      .error (.genericErr "Bid price not high enough") :=
  (((claim_C2 storeA envLow { address := "tokA", amount := 50 } "abc" "bob" auctionA
    rfl).1 (by decide)).2.2) rfl rfl

/-- Witness for claim C3 at a concrete bid on an unknown identifier. -/
theorem claim_C3_witness :
    runBid [] envLow { address := "tokA", amount := 50 } "abc" "bob" =
      ([], .error (.notFound "cw20_bid_more::state::Auction")) :=
  (claim_C3 [] envLow { address := "tokA", amount := 50 } "abc" "bob").1 rfl

/-- Witness for claim C4 at a concrete duplicate Create with a live payload. -/
theorem claim_C4_witness :
    runCreate storeA envLow { id := "abc", expires := .atHeight 50 }
        { address := "tokB", amount := 7 } "bob" =
      (storeA, .error (.genericErr "Auction already exists")) :=
  (claim_C4 storeA envLow { id := "abc", expires := .atHeight 50 }
    { address := "tokB", amount := 7 } "bob").2.2.1 auctionA rfl rfl rfl

/-- Witness for claim C5 at the empty store and at the example store. -/
theorem claim_C5_witness :
    List.Pairwise (fun a b => keyLt (utf8Encode a) (utf8Encode b) = true)
      ([] : List String) ∧
    ([] : List String).length ≤ min ((none : Option Nat).getD 10) 30 ∧
    (∀ k, (none : Option String) = some k → k ∉ ([] : List String)) ∧
    query_list exampleStore none none = .ok { auctions := ["assign", "lazy", "zen"] } :=
  claim_C5 [] List.Pairwise.nil none none [] rfl

/-- Witness for claim C6 at a concrete accepted bid over a non-zero balance. -/
theorem claim_C6_witness :
    ({ messages := [{ contract_addr := "tokA", recipient := "alice", amount := 100 }],
       log := [("action", "bid"), ("id", "abc"), ("by", "bob")],
       data := none } : HandleResponse).messages.length = 1 :=
  (claim_C6 storeA envLow { address := "tokA", amount := 150 } "abc" "bob" auctionA _ _
    rfl rfl).1 (by decide)

/-- Witness for claim C7 at a store whose only key is not valid UTF-8. -/
theorem claim_C7_witness :
    all_auction_ids [([255], auctionA)] none 10 =
      .error (.invalidUtf8 "Parsing auction id") :=
  claim_C7 [([255], auctionA)] none 10 ⟨[255], by decide, rfl⟩

/-- Witness for claim C8 at a concrete self-bid by the current winner. -/
theorem claim_C8_witness :
    try_bid storeA envLow { address := "tokA", amount := 150 } "abc" "alice" =
      .ok (storeInsert (utf8Encode "abc")
            { winner := "alice", source := "alice", expires := .atHeight 100,
              balance := { address := "tokA", amount := 150 } } storeA,
           { messages := send_tokens envLow.contract_address auctionA.winner auctionA.balance,
             log := [("action", "bid"), ("id", "abc"), ("by", "alice")], data := none }) :=
  (claim_C8 storeA envLow { address := "tokA", amount := 150 } "abc" "alice" auctionA
    rfl rfl rfl rfl (by decide)).1

/-- Witness for claim C9 at concrete arguments. -/
theorem claim_C9_witness :
    try_bid storeA envLow { address := "tokA", amount := 150 } "abc" "bob" ≠
      .error (.genericErr "Auction does not exist") :=
  claim_C9 storeA envLow { address := "tokA", amount := 150 } "abc" "bob"

end BidMore
